import Mathlib

/-!
# ChatWidget: the `Home` component of `src/app/page.js`

A shallow embedding of the chat component: its three `useState` cells, the
asynchronous `sendMessage` routine (guard, optimistic updates, request,
streamed read loop, catch block), the `handleKeyPress` handler, and the two
platform primitives the routine calls (`TextDecoder` in streaming mode and
`JSON.stringify` on the message array).

Conventions.
* A JavaScript string is a Lean `String`; `+` on strings is `++`.
* A byte is a `Nat` (the elements of a `Uint8Array` are below 256).
* `sendMessage` is invoked on a settled render, so the values it closes over
  (`messages`, `message`, `isLoading`) are the current state; the functional
  updaters passed to `setMessages` are applied in call order.
* The network is a script: how `fetch` settles and, for a streamed body, the
  chunks `reader.read()` yields and how the stream ends.
-/

namespace ChatWidget

/-! ## Data model -/

/-- One turn of the conversation: an object with the fields `role` and `content`. -/
structure Message where
  role : String
  content : String
  deriving DecidableEq, Repr

/-- The three `useState` cells of `Home` (page.js lines 12-19). -/
structure State where
  messages : List Message
  message : String
  isLoading : Bool
  deriving DecidableEq, Repr

/-- The seeded greeting of `useState([...])` (page.js lines 12-17). -/
def greeting : Message :=
  { role := "assistant"
    content := "Hi! I'm the Headstarter support assistant. How can I help you today?" }

/-- The state of a freshly mounted component. -/
def initialState : State :=
  { messages := [greeting], message := "", isLoading := false }

/-- The fixed text of the catch block (page.js line 70). -/
def errorText : String :=
  "I'm sorry, but I encountered an error. Please try again later."

/-! ## `String.prototype.trim` -/

/-- ECMAScript `WhiteSpace` and `LineTerminator` code points, the set `trim` strips. -/
def isJsWhiteSpace (c : Char) : Bool :=
  let n := c.toNat
  n == 0x09 || n == 0x0A || n == 0x0B || n == 0x0C || n == 0x0D || n == 0x20 ||
  n == 0xA0 || n == 0x1680 || (0x2000 ≤ n && n ≤ 0x200A) || n == 0x2028 ||
  n == 0x2029 || n == 0x202F || n == 0x205F || n == 0x3000 || n == 0xFEFF

/-- The method `message.trim()`: strip white space from both ends. -/
def trim (s : String) : String :=
  String.mk ((s.data.dropWhile isJsWhiteSpace).reverse.dropWhile isJsWhiteSpace).reverse

/-- The guard of page.js line 27: `!message.trim() || isLoading`
(a string is falsy exactly when it is empty). -/
def guardRejects (s : State) : Bool :=
  (trim s.message == "") || s.isLoading

/-! ## `TextDecoder` (UTF-8, replacement error mode, BOM not ignored) -/

/-- U+FFFD, emitted for every decoding error. -/
def replacementChar : Char := Char.ofNat 0xFFFD

/-- U+FEFF, the byte order mark. -/
def bomChar : Char := Char.ofNat 0xFEFF

/-- The state of the Encoding Standard's UTF-8 decoder. -/
structure Utf8Decoder where
  codePoint : Nat
  bytesSeen : Nat
  bytesNeeded : Nat
  lowerBoundary : Nat
  upperBoundary : Nat
  deriving DecidableEq, Repr

namespace Utf8Decoder

/-- A new decoder instance. -/
def fresh : Utf8Decoder :=
  { codePoint := 0, bytesSeen := 0, bytesNeeded := 0, lowerBoundary := 0x80, upperBoundary := 0xBF }

/-- Handler step 3: a byte arriving while no continuation byte is awaited. -/
def lead (d : Utf8Decoder) (byte : Nat) : Utf8Decoder × List Char :=
  if byte ≤ 0x7F then (d, [Char.ofNat byte])
  else if 0xC2 ≤ byte ∧ byte ≤ 0xDF then
    ({ d with bytesNeeded := 1, codePoint := byte &&& 0x1F }, [])
  else if 0xE0 ≤ byte ∧ byte ≤ 0xEF then
    ({ d with
        lowerBoundary := if byte = 0xE0 then 0xA0 else d.lowerBoundary
        upperBoundary := if byte = 0xED then 0x9F else d.upperBoundary
        bytesNeeded := 2
        codePoint := byte &&& 0xF }, [])
  else if 0xF0 ≤ byte ∧ byte ≤ 0xF4 then
    ({ d with
        lowerBoundary := if byte = 0xF0 then 0x90 else d.lowerBoundary
        upperBoundary := if byte = 0xF4 then 0x8F else d.upperBoundary
        bytesNeeded := 3
        codePoint := byte &&& 0x7 }, [])
  else (d, [replacementChar])

/-- The handler on one byte: the new state and the code points emitted.
A byte outside the expected range resets the decoder, emits U+FFFD and is
then processed again as a lead byte (it is restored to the queue). -/
def handler (d : Utf8Decoder) (byte : Nat) : Utf8Decoder × List Char :=
  if d.bytesNeeded = 0 then d.lead byte
  else if byte < d.lowerBoundary ∨ d.upperBoundary < byte then
    let r := fresh.lead byte
    (r.1, replacementChar :: r.2)
  else
    let d1 := { d with
      lowerBoundary := 0x80
      upperBoundary := 0xBF
      codePoint := (d.codePoint <<< 6) ||| (byte &&& 0x3F)
      bytesSeen := d.bytesSeen + 1 }
    if d1.bytesSeen ≠ d1.bytesNeeded then (d1, [])
    else (fresh, [Char.ofNat d1.codePoint])

/-- Run the handler over the bytes of one chunk, collecting the output. -/
def run (d : Utf8Decoder) : List Nat → Utf8Decoder × List Char
  | [] => (d, [])
  | byte :: rest =>
    let r := d.handler byte
    let r2 := run r.1 rest
    (r2.1, r.2 ++ r2.2)

/-- The handler at end-of-queue: a pending partial character becomes U+FFFD. -/
def finish (d : Utf8Decoder) : Utf8Decoder × List Char :=
  if d.bytesNeeded ≠ 0 then ({ d with bytesNeeded := 0 }, [replacementChar])
  else (d, [])

end Utf8Decoder

/-- A `TextDecoder` object: its decoder, the BOM-seen flag and the do-not-flush flag. -/
structure TextDecoder where
  decoder : Utf8Decoder
  bomSeen : Bool
  doNotFlush : Bool
  deriving DecidableEq, Repr

namespace TextDecoder

/-- Constructor call `new TextDecoder()` (page.js line 51). -/
def new : TextDecoder :=
  { decoder := Utf8Decoder.fresh, bomSeen := false, doNotFlush := false }

/-- Serialize the output queue: the first code point ever produced is dropped
when it is the byte order mark. -/
def serialize (bomSeen : Bool) (items : List Char) : Bool × List Char :=
  match items with
  | [] => (bomSeen, [])
  | c :: cs => if bomSeen then (true, c :: cs)
               else if c = bomChar then (true, cs) else (true, c :: cs)

/-- The method `decoder.decode(value, { stream })`. With `stream` set the
end-of-queue is not processed, so a trailing partial character stays pending
in the decoder. -/
def decode (td : TextDecoder) (value : List Nat) (stream : Bool) : TextDecoder × String :=
  let td1 := if td.doNotFlush then td
             else { td with decoder := Utf8Decoder.fresh, bomSeen := false }
  let r := td1.decoder.run value
  let e := if stream then (r.1, []) else r.1.finish
  let s := serialize td1.bomSeen (r.2 ++ e.2)
  ({ decoder := e.1, bomSeen := s.1, doNotFlush := stream }, String.mk s.2)

end TextDecoder

/-- The text of a whole byte sequence: `new TextDecoder().decode(bytes)`. -/
def utf8Decode (bytes : List Nat) : String :=
  (TextDecoder.new.decode bytes false).2

/-! ## `JSON.stringify` on an array of message objects -/

/-- The four-digit lower-case hexadecimal escape of a control character. -/
def hexDigit (n : Nat) : Char :=
  if n < 10 then Char.ofNat (0x30 + n) else Char.ofNat (0x61 + (n - 10))

/-- One character inside a JSON string (`QuoteJSONString`). -/
def quoteChar (c : Char) : List Char :=
  let n := c.toNat
  let bs := Char.ofNat 0x5C
  if n = 0x08 then [bs, Char.ofNat 0x62]
  else if n = 0x09 then [bs, Char.ofNat 0x74]
  else if n = 0x0A then [bs, Char.ofNat 0x6E]
  else if n = 0x0C then [bs, Char.ofNat 0x66]
  else if n = 0x0D then [bs, Char.ofNat 0x72]
  else if n = 0x22 then [bs, Char.ofNat 0x22]
  else if n = 0x5C then [bs, bs]
  else if n < 0x20 then
    [bs, Char.ofNat 0x75, Char.ofNat 0x30, Char.ofNat 0x30, hexDigit (n / 16), hexDigit (n % 16)]
  else [c]

/-- A string value as JSON text: the escaped characters between double quotes. -/
def quoteJSONString (s : String) : List Char :=
  Char.ofNat 0x22 :: (s.data.flatMap quoteChar ++ [Char.ofNat 0x22])

/-- One message object as JSON text: its own properties in creation order,
`role` then `content`, with no white space. -/
def stringifyMessage (m : Message) : List Char :=
  "\x7b\"role\":".data ++ quoteJSONString m.role ++
  ",\"content\":".data ++ quoteJSONString m.content ++ "\x7d".data

/-- The elements of an array, separated by commas. -/
def stringifyElements : List Message → List Char
  | [] => []
  | [m] => stringifyMessage m
  | m :: rest => stringifyMessage m ++ Char.ofNat 0x2C :: stringifyElements rest

/-- The call `JSON.stringify(array)` for an array of message objects. -/
def JSONstringify (ms : List Message) : String :=
  String.mk (Char.ofNat 0x5B :: (stringifyElements ms ++ [Char.ofNat 0x5D]))

/-! ## Reading the request body back

The endpoint parses the body as JSON. The reader below accepts the texts that
`JSONstringify` writes (and any JSON spelling of their string escapes) and
returns the array of messages they denote. -/

/-- The value of a hexadecimal digit. -/
def hexValue (c : Char) : Option Nat :=
  let n := c.toNat
  if 0x30 ≤ n ∧ n ≤ 0x39 then some (n - 0x30)
  else if 0x61 ≤ n ∧ n ≤ 0x66 then some (n - 0x61 + 10)
  else if 0x41 ≤ n ∧ n ≤ 0x46 then some (n - 0x41 + 10)
  else none

/-- The character a two-character escape stands for. -/
def unescape (e : Char) : Option Char :=
  let n := e.toNat
  if n = 0x62 then some (Char.ofNat 0x08)
  else if n = 0x74 then some (Char.ofNat 0x09)
  else if n = 0x6E then some (Char.ofNat 0x0A)
  else if n = 0x66 then some (Char.ofNat 0x0C)
  else if n = 0x72 then some (Char.ofNat 0x0D)
  else if n = 0x22 then some (Char.ofNat 0x22)
  else if n = 0x5C then some (Char.ofNat 0x5C)
  else if n = 0x2F then some (Char.ofNat 0x2F)
  else none

/-- Where the reader stands inside a string: between characters, after a
backslash, or inside a `\u` escape with some digits still to come. -/
inductive ReadMode
  | plain
  | escape
  | hex (remaining : Nat) (acc : Nat)
  deriving DecidableEq, Repr

/-- Put a character in front of the string read so far. -/
def consResult (c : Char) :
    Option (List Char × List Char) → Option (List Char × List Char)
  | some r => some (c :: r.1, r.2)
  | none => none

/-- Read the characters of a JSON string, one at a time, up to its closing
quote: the string denoted and the input after the quote. -/
def readChars : ReadMode → List Char → Option (List Char × List Char)
  | _, [] => none
  | .plain, c :: rest =>
    if c.toNat = 0x22 then some ([], rest)
    else if c.toNat = 0x5C then readChars .escape rest
    else consResult c (readChars .plain rest)
  | .escape, e :: rest =>
    if e.toNat = 0x75 then readChars (.hex 3 0) rest
    else
      match unescape e with
      | some ch => consResult ch (readChars .plain rest)
      | none => none
  | .hex remaining acc, h :: rest =>
    match hexValue h with
    | none => none
    | some v =>
      match remaining with
      | 0 => consResult (Char.ofNat (acc * 16 + v)) (readChars .plain rest)
      | k + 1 => readChars (.hex k (acc * 16 + v)) rest

/-- Read a JSON string after its opening quote. -/
def readString (input : List Char) : Option (List Char × List Char) :=
  readChars .plain input

/-- Consume a fixed text at the head of the input. -/
def expect : List Char → List Char → Option (List Char)
  | [], input => some input
  | _ :: _, [] => none
  | c :: cs, d :: ds => if c = d then expect cs ds else none

/-- Read one message object written as `role` then `content`. -/
def readMessage (input : List Char) : Option (Message × List Char) :=
  match expect "\x7b\"role\":\"".data input with
  | none => none
  | some r1 =>
    match readString r1 with
    | none => none
    | some (role, r2) =>
      match expect ",\"content\":\"".data r2 with
      | none => none
      | some r3 =>
        match readString r3 with
        | none => none
        | some (content, r4) =>
          match expect "\x7d".data r4 with
          | none => none
          | some r5 => some ({ role := String.mk role, content := String.mk content }, r5)

/-- Read the elements of a non-empty array up to its closing bracket. Every
element consumes input, so fuel equal to the length of the input suffices. -/
def readElements : Nat → List Char → Option (List Message)
  | 0, _ => none
  | fuel + 1, input =>
    match readMessage input with
    | none => none
    | some (m, rest) =>
      match rest with
      | [c] => if c.toNat = 0x5D then some [m] else none
      | c :: rest2 =>
        if c.toNat = 0x2C then
          match readElements fuel rest2 with
          | none => none
          | some ms => some (m :: ms)
        else none
      | [] => none

/-- Read a request body back into the array of messages it denotes. -/
def readBody (body : String) : Option (List Message) :=
  match body.data with
  | [] => none
  | c :: rest =>
    if c.toNat = 0x5B then
      match rest with
      | [d] => if d.toNat = 0x5D then some [] else none
      | _ => readElements rest.length rest
    else none

/-! ## The network script -/

/-- What can be thrown inside the `try` block of `sendMessage`. -/
inductive JsError
  | fetchRejected   -- `fetch` rejected (network failure)
  | notOk           -- `new Error('Network response was not ok')`, page.js line 47
  | bodyNull        -- `response.body` is null, so `.getReader()` throws
  | readRejected    -- `reader.read()` rejected in mid-stream
  deriving DecidableEq, Repr

/-- How the body stream ends: a read reporting `done`, or a read that rejects. -/
inductive StreamEnd
  | done
  | throws
  deriving DecidableEq, Repr

/-- A streamed response body: the byte chunks the reads deliver, then its end. -/
structure Body where
  chunks : List (List Nat)
  ending : StreamEnd
  deriving DecidableEq, Repr

/-- The response `fetch` resolves with: the `ok` flag and the body (null for a
response without one). -/
structure Response where
  ok : Bool
  body : Option Body
  deriving DecidableEq, Repr

/-- How the `fetch` call settles. -/
inductive FetchResult
  | rejects
  | resolves (response : Response)
  deriving DecidableEq, Repr

/-- The arguments of the `fetch` call (page.js lines 38-44). -/
structure Request where
  url : String
  method : String
  headers : List (String × String)
  body : String
  deriving DecidableEq, Repr

/-! ## `sendMessage` -/

/-- The updater of page.js lines 57-64: replace the last message by a copy whose
content has `text` appended. On an empty array `lastMessage` is `undefined`
and reading its `content` throws, which is `none` here. -/
def appendText (text : String) (messages : List Message) : Option (List Message) :=
  match messages[messages.length - 1]? with
  | none => none
  | some lastMessage =>
    let otherMessages := messages.take (messages.length - 1)
    some (otherMessages ++ [{ lastMessage with content := lastMessage.content ++ text }])

/-- How control leaves the `try` block. -/
inductive Exit
  | normal                -- the loop ended with `break`
  | threw (e : JsError)   -- an exception reached the `catch`
  | renderFailed          -- a state updater threw while React applied it
  deriving DecidableEq, Repr

/-- The effect of the `try` block: the state it leaves, the states the
component was in at each `await`, and how it was left. -/
structure Attempt where
  state : State
  suspended : List State
  exit : Exit
  deriving DecidableEq, Repr

/-- The loop of page.js lines 53-65: each iteration awaits a read; a chunk is
decoded in streaming mode and appended to the last message. -/
def readLoop (decoder : TextDecoder) (s : State) : List (List Nat) → StreamEnd → Attempt
  | [], .done => { state := s, suspended := [s], exit := .normal }
  | [], .throws => { state := s, suspended := [s], exit := .threw .readRejected }
  | value :: rest, ending =>
    let r := decoder.decode value true
    match appendText r.2 s.messages with
    | none => { state := s, suspended := [s], exit := .renderFailed }
    | some ms =>
      let a := readLoop r.1 { s with messages := ms } rest ending
      { a with suspended := s :: a.suspended }

/-- The `try` block after the request is issued, page.js lines 38-65. -/
def tryBlock (net : FetchResult) (s : State) : Attempt :=
  match net with
  | .rejects => { state := s, suspended := [s], exit := .threw .fetchRejected }
  | .resolves response =>
    if !response.ok then { state := s, suspended := [s], exit := .threw .notOk }
    else
      match response.body with
      | none => { state := s, suspended := [s], exit := .threw .bodyNull }
      | some body =>
        let a := readLoop TextDecoder.new s body.chunks body.ending
        { a with suspended := s :: a.suspended }

/-- How the promise returned by `sendMessage` settles. -/
inductive Settled
  | fulfilled
  | rejected (e : JsError)
  | renderFailed
  deriving DecidableEq, Repr

/-- Everything observable of one call of `sendMessage`. -/
structure Run where
  final : State
  requests : List Request
  suspended : List State
  logged : List JsError
  settled : Settled
  deriving DecidableEq, Repr

/-- The request of page.js lines 38-44, built from the values the call closes over. -/
def buildRequest (s : State) : Request :=
  { url := "/api/chat"
    method := "POST"
    headers := [("Content-Type", "application/json")]
    body := JSONstringify (s.messages ++ [{ role := "user", content := s.message }]) }

/-- The state updates of page.js lines 28-35, in order. -/
def beginSend (s : State) : State :=
  let s1 : State := { s with isLoading := true }
  let s2 : State := { s1 with message := "" }
  { s2 with messages := s2.messages ++
      [{ role := "user", content := s.message }, { role := "assistant", content := "" }] }

/-- The state update of the `catch` block (page.js lines 68-71). -/
def catchBlock (s : State) : State :=
  { s with messages := s.messages ++ [{ role := "assistant", content := errorText }] }

/-- The function `sendMessage` (page.js lines 26-74) against a network script. -/
def sendMessage (net : FetchResult) (s : State) : Run :=
  if guardRejects s then
    { final := s, requests := [], suspended := [], logged := [], settled := .fulfilled }
  else
    let a := tryBlock net (beginSend s)
    match a.exit with
    | .normal =>
      { final := { a.state with isLoading := false }
        requests := [buildRequest s], suspended := a.suspended, logged := []
        settled := .fulfilled }
    | .threw e =>
      { final := { catchBlock a.state with isLoading := false }
        requests := [buildRequest s], suspended := a.suspended, logged := [e]
        settled := .fulfilled }
    | .renderFailed =>
      { final := a.state
        requests := [buildRequest s], suspended := a.suspended, logged := []
        settled := .renderFailed }

/-! ## `handleKeyPress` -/

/-- The fields of the keyboard event that the handler reads. -/
structure KeyEvent where
  key : String
  shiftKey : Bool
  deriving DecidableEq, Repr

/-- What one call of `handleKeyPress` did. -/
structure KeyOutcome where
  defaultPrevented : Bool
  calls : List Run
  final : State
  deriving DecidableEq, Repr

/-- The function `handleKeyPress` (page.js lines 76-81). -/
def handleKeyPress (event : KeyEvent) (net : FetchResult) (s : State) : KeyOutcome :=
  if event.key == "Enter" && !event.shiftKey then
    let r := sendMessage net s
    { defaultPrevented := true, calls := [r], final := r.final }
  else
    { defaultPrevented := false, calls := [], final := s }

/-! ## The texts a streamed body decodes to -/

/-- The value of `text` (page.js line 56) at each iteration of the loop: the
results of the successive streaming `decode` calls on one decoder. -/
def decodedTexts (decoder : TextDecoder) : List (List Nat) → List String
  | [] => []
  | value :: rest =>
    let r := decoder.decode value true
    r.2 :: decodedTexts r.1 rest

/-- The concatenation `c1 + c2 + ... + cn` of a sequence of texts, in order. -/
def concatTexts : List String → String
  | [] => ""
  | c :: rest => c ++ concatTexts rest

/-- The decoder object after the streaming `decode` calls on the given chunks. -/
def decoderAfter (decoder : TextDecoder) : List (List Nat) → TextDecoder
  | [] => decoder
  | value :: rest => decoderAfter (decoder.decode value true).1 rest

/-! ## The component as a transition system

Calls of `sendMessage` are asynchronous: between two `await`s the event loop
may run other handlers. A `World` holds the component state together with the
calls that are suspended; an `Event` is one turn of the event loop. -/

/-- Where a call of `sendMessage` is suspended. -/
inductive Pending
  | awaitingFetch
  | awaitingRead (decoder : TextDecoder)
  deriving DecidableEq, Repr

/-- The component state, the suspended calls of `sendMessage`, the requests
issued so far, the errors logged, and whether a state updater has thrown. -/
structure World where
  ui : State
  inflight : List Pending
  requests : List Request
  logged : List JsError
  crashed : Bool
  deriving DecidableEq, Repr

/-- One turn of the event loop. The index names the suspended call resumed. -/
inductive Event
  | change (value : String)
  | click
  | keyPress (event : KeyEvent)
  | fetchRejects (i : Nat)
  | fetchResolves (i : Nat) (ok : Bool) (hasBody : Bool)
  | readChunk (i : Nat) (value : List Nat)
  | readDone (i : Nat)
  | readThrows (i : Nat)
  deriving DecidableEq, Repr

namespace World

/-- A freshly mounted component with nothing in flight. -/
def initial : World :=
  { ui := initialState, inflight := [], requests := [], logged := [], crashed := false }

/-- A call of `sendMessage` up to its first `await` (page.js lines 27-44). -/
def invoke (w : World) : World :=
  if guardRejects w.ui then w
  else
    { w with
      ui := beginSend w.ui
      inflight := w.inflight ++ [Pending.awaitingFetch]
      requests := w.requests ++ [buildRequest w.ui] }

/-- Call `i` leaves the `try` block normally and runs page.js line 73. -/
def complete (w : World) (i : Nat) : World :=
  { w with ui := { w.ui with isLoading := false }, inflight := w.inflight.eraseIdx i }

/-- Call `i` runs its `catch` block and then page.js line 73. -/
def fail (w : World) (i : Nat) (e : JsError) : World :=
  { w with
    ui := { catchBlock w.ui with isLoading := false }
    inflight := w.inflight.eraseIdx i
    logged := w.logged ++ [e] }

/-- One turn of the event loop. An event for a call that is not suspended at
the matching `await` cannot occur and changes nothing. -/
def step (w : World) (ev : Event) : World :=
  if w.crashed then w
  else
    match ev with
    | .change value => { w with ui := { w.ui with message := value } }
    | .click => w.invoke
    | .keyPress event => if event.key == "Enter" && !event.shiftKey then w.invoke else w
    | .fetchRejects i =>
      match w.inflight[i]? with
      | some .awaitingFetch => w.fail i .fetchRejected
      | _ => w
    | .fetchResolves i ok hasBody =>
      match w.inflight[i]? with
      | some .awaitingFetch =>
        if !ok then w.fail i .notOk
        else if !hasBody then w.fail i .bodyNull
        else { w with inflight := w.inflight.set i (.awaitingRead TextDecoder.new) }
      | _ => w
    | .readChunk i value =>
      match w.inflight[i]? with
      | some (.awaitingRead decoder) =>
        let r := decoder.decode value true
        match appendText r.2 w.ui.messages with
        | none => { w with crashed := true }
        | some ms =>
          { w with
            ui := { w.ui with messages := ms }
            inflight := w.inflight.set i (.awaitingRead r.1) }
      | _ => w
    | .readDone i =>
      match w.inflight[i]? with
      | some (.awaitingRead _) => w.complete i
      | _ => w
    | .readThrows i =>
      match w.inflight[i]? with
      | some (.awaitingRead _) => w.fail i .readRejected
      | _ => w

/-- Run a sequence of events. -/
def run (w : World) (events : List Event) : World :=
  events.foldl step w

end World

/-- The events by which a network script resumes the call with index `i`. -/
def script (i : Nat) : FetchResult → List Event
  | .rejects => [.fetchRejects i]
  | .resolves response =>
    match response.body with
    | none => [.fetchResolves i response.ok false]
    | some body =>
      (.fetchResolves i response.ok true) :: (body.chunks.map (Event.readChunk i) ++
        [match body.ending with
         | .done => Event.readDone i
         | .throws => Event.readThrows i])

/-- The invariant of the transition system: at most one call is suspended, and
the loading flag is set exactly while one is. -/
def World.Inv (w : World) : Prop :=
  w.inflight.length ≤ 1 ∧ (w.ui.isLoading = true ↔ w.inflight ≠ [])

/-- A decoder object that has only been used in streaming mode: either it is
in the middle of a stream or it is as constructed. -/
def TextDecoder.Streaming (td : TextDecoder) : Prop :=
  td.doNotFlush = true ∨ (td.decoder = Utf8Decoder.fresh ∧ td.bomSeen = false)

end ChatWidget

/-! # Properties -/

namespace ChatWidget

/-! ## Auxiliary facts -/

theorem trim_eq_empty_iff (s : String) :
    trim s = "" ↔ ∀ c ∈ s.data, isJsWhiteSpace c = true := by
  have key : trim s = "" ↔
      ((s.data.dropWhile isJsWhiteSpace).reverse.dropWhile isJsWhiteSpace).reverse = [] := by
    unfold trim
    constructor
    · intro h
      exact congrArg String.data h
    · intro h
      rw [h]
  rw [key, List.reverse_eq_nil_iff, List.dropWhile_eq_nil_iff]
  constructor
  · intro h
    have h2 : s.data.dropWhile isJsWhiteSpace = [] := by
      cases hd : s.data.dropWhile isJsWhiteSpace with
      | nil => rfl
      | cons a l =>
        have ha : isJsWhiteSpace a = true := h a (by rw [hd]; simp)
        have hne : s.data.dropWhile isJsWhiteSpace ≠ [] := by rw [hd]; simp
        have := List.head_dropWhile_not isJsWhiteSpace s.data hne
        simp [hd, ha] at this
    exact List.dropWhile_eq_nil_iff.mp h2
  · intro h
    rw [List.dropWhile_eq_nil_iff.mpr h]
    simp

theorem guardRejects_of_blank (s : State) (h : ∀ c ∈ s.message.data, isJsWhiteSpace c = true) :
    guardRejects s = true := by
  simp [guardRejects, (trim_eq_empty_iff s.message).mpr h]

theorem guardRejects_of_loading (s : State) (h : s.isLoading = true) :
    guardRejects s = true := by
  simp [guardRejects, h]

theorem guardRejects_eq_false (M : List Message) (t : String) (h : trim t ≠ "") :
    guardRejects { messages := M, message := t, isLoading := false } = false := by
  simp [guardRejects, h]

theorem appendText_snoc (text : String) (xs : List Message) (m : Message) :
    appendText text (xs ++ [m]) =
      some (xs ++ [{ role := m.role, content := m.content ++ text }]) := by
  unfold appendText
  have h1 : (xs ++ [m])[(xs ++ [m]).length - 1]? = some m := by
    rw [← List.getLast?_eq_getElem?]
    simp
  have h2 : (xs ++ [m]).take ((xs ++ [m]).length - 1) = xs := by
    apply List.take_left'
    simp
  rw [h1]
  simp only [h2]

theorem readLoop_state (chunks : List (List Nat)) :
    ∀ (decoder : TextDecoder) (xs : List Message) (m : Message) (msg : String) (l : Bool)
      (ending : StreamEnd),
      (readLoop decoder { messages := xs ++ [m], message := msg, isLoading := l }
          chunks ending).state =
        { messages := xs ++ [{ role := m.role
                               content := m.content ++ concatTexts (decodedTexts decoder chunks) }]
          message := msg, isLoading := l } := by
  induction chunks with
  | nil =>
    intro decoder xs m msg l ending
    cases ending <;> simp [readLoop, decodedTexts, concatTexts]
  | cons value rest ih =>
    intro decoder xs m msg l ending
    simp only [readLoop, appendText_snoc, decodedTexts, concatTexts]
    rw [ih]
    simp [String.append_assoc]

theorem readLoop_exit (chunks : List (List Nat)) :
    ∀ (decoder : TextDecoder) (xs : List Message) (m : Message) (msg : String) (l : Bool)
      (ending : StreamEnd),
      (readLoop decoder { messages := xs ++ [m], message := msg, isLoading := l }
          chunks ending).exit =
        (match ending with
         | .done => Exit.normal
         | .throws => Exit.threw JsError.readRejected) := by
  induction chunks with
  | nil =>
    intro decoder xs m msg l ending
    cases ending <;> simp [readLoop]
  | cons value rest ih =>
    intro decoder xs m msg l ending
    simp only [readLoop, appendText_snoc]
    rw [ih]

theorem beginSend_eq (M : List Message) (t : String) (l : Bool) :
    beginSend { messages := M, message := t, isLoading := l } =
      { messages := (M ++ [{ role := "user", content := t }]) ++ [{ role := "assistant", content := "" }]
        message := "", isLoading := true } := by
  simp [beginSend]

theorem sendMessage_requests (net : FetchResult) (s : State) (h : guardRejects s = false) :
    (sendMessage net s).requests = [buildRequest s] := by
  unfold sendMessage
  rw [h]
  simp only [Bool.false_eq_true, if_false]
  cases (tryBlock net (beginSend s)).exit <;> rfl

theorem sendMessage_suspended (net : FetchResult) (s : State) (h : guardRejects s = false) :
    (sendMessage net s).suspended = (tryBlock net (beginSend s)).suspended := by
  unfold sendMessage
  rw [h]
  simp only [Bool.false_eq_true, if_false]
  cases (tryBlock net (beginSend s)).exit <;> rfl

theorem tryBlock_suspended_head (net : FetchResult) (s : State) :
    (tryBlock net s).suspended.head? = some s := by
  unfold tryBlock
  cases net with
  | rejects => rfl
  | resolves response =>
    obtain ⟨ok, body⟩ := response
    cases ok <;> cases body <;> simp

theorem sendMessage_of_normal (net : FetchResult) (s : State) (h : guardRejects s = false)
    (hx : (tryBlock net (beginSend s)).exit = Exit.normal) :
    (sendMessage net s).final = { (tryBlock net (beginSend s)).state with isLoading := false }
    ∧ (sendMessage net s).logged = []
    ∧ (sendMessage net s).settled = Settled.fulfilled := by
  unfold sendMessage
  rw [h]
  simp [hx]

theorem sendMessage_of_threw (net : FetchResult) (s : State) (e : JsError)
    (h : guardRejects s = false)
    (hx : (tryBlock net (beginSend s)).exit = Exit.threw e) :
    (sendMessage net s).final =
        { catchBlock (tryBlock net (beginSend s)).state with isLoading := false }
    ∧ (sendMessage net s).logged = [e]
    ∧ (sendMessage net s).settled = Settled.fulfilled := by
  unfold sendMessage
  rw [h]
  simp [hx]

theorem tryBlock_stream (body : Body) (xs : List Message) (m : Message) (msg : String)
    (l : Bool) :
    (tryBlock (.resolves { ok := true, body := some body })
        { messages := xs ++ [m], message := msg, isLoading := l }).state =
      { messages := xs ++ [{ role := m.role
                             content := m.content ++
                               concatTexts (decodedTexts TextDecoder.new body.chunks) }]
        message := msg, isLoading := l }
    ∧ (tryBlock (.resolves { ok := true, body := some body })
        { messages := xs ++ [m], message := msg, isLoading := l }).exit =
      (match body.ending with
       | .done => Exit.normal
       | .throws => Exit.threw JsError.readRejected) := by
  simp [tryBlock, readLoop_state, readLoop_exit]

/-! ## The transition system: at most one call in flight -/

theorem World.inv_initial : World.Inv World.initial := by
  simp [World.Inv, World.initial, initialState]

theorem World.inv_cases (w : World) (h : World.Inv w) :
    (w.inflight = [] ∧ w.ui.isLoading = false) ∨
    (∃ p, w.inflight = [p] ∧ w.ui.isLoading = true) := by
  obtain ⟨h1, h2⟩ := h
  match hw : w.inflight with
  | [] =>
    left
    refine ⟨rfl, ?_⟩
    cases hl : w.ui.isLoading
    · rfl
    · exact absurd hw (h2.mp hl)
  | [p] =>
    right
    exact ⟨p, rfl, h2.mpr (by simp [hw])⟩
  | p :: q :: r =>
    rw [hw] at h1
    simp at h1

theorem World.inv_invoke (w : World) (h : World.Inv w) : World.Inv w.invoke := by
  unfold World.invoke
  cases hg : guardRejects w.ui
  · simp only [Bool.false_eq_true, if_false]
    have hl : w.ui.isLoading = false := by
      simp [guardRejects] at hg
      exact hg.2
    rcases World.inv_cases w h with ⟨h0, _⟩ | ⟨p, _, h1⟩
    · simp [World.Inv, h0, beginSend]
    · rw [hl] at h1
      cases h1
  · simpa using h

theorem World.inv_step (w : World) (ev : Event) (h : World.Inv w) :
    World.Inv (w.step ev) := by
  cases hc : w.crashed
  · rcases World.inv_cases w h with ⟨h0, hl⟩ | ⟨p, h1, hl⟩
    · cases ev with
      | change value => simp [World.step, hc, World.Inv, h0, hl]
      | click =>
        simp only [World.step, hc, Bool.false_eq_true, if_false]
        exact World.inv_invoke w h
      | keyPress event =>
        simp only [World.step, hc, Bool.false_eq_true, if_false]
        split
        · exact World.inv_invoke w h
        · exact h
      | fetchRejects i => simp [World.step, hc, World.Inv, h0, hl]
      | fetchResolves i ok hasBody => simp [World.step, hc, World.Inv, h0, hl]
      | readChunk i value => simp [World.step, hc, World.Inv, h0, hl]
      | readDone i => simp [World.step, hc, World.Inv, h0, hl]
      | readThrows i => simp [World.step, hc, World.Inv, h0, hl]
    · cases ev with
      | change value => simp [World.step, hc, World.Inv, h1, hl]
      | click =>
        simp only [World.step, hc, Bool.false_eq_true, if_false]
        exact World.inv_invoke w h
      | keyPress event =>
        simp only [World.step, hc, Bool.false_eq_true, if_false]
        split
        · exact World.inv_invoke w h
        · exact h
      | fetchRejects i =>
        cases i <;> cases p <;>
          simp [World.step, hc, World.Inv, h1, hl, World.fail, catchBlock]
      | fetchResolves i ok hasBody =>
        cases i <;> cases p <;> cases ok <;> cases hasBody <;>
          simp [World.step, hc, World.Inv, h1, hl, World.fail, catchBlock]
      | readChunk i value =>
        cases i with
        | zero =>
          cases p with
          | awaitingFetch => simp [World.step, hc, World.Inv, h1, hl]
          | awaitingRead d =>
            simp only [World.step, hc, Bool.false_eq_true, if_false, h1,
              List.getElem?_cons_zero]
            split <;> simp [World.Inv, h1, hl]
        | succ n => cases p <;> simp [World.step, hc, World.Inv, h1, hl]
      | readDone i =>
        cases i <;> cases p <;>
          simp [World.step, hc, World.Inv, h1, hl, World.complete]
      | readThrows i =>
        cases i <;> cases p <;>
          simp [World.step, hc, World.Inv, h1, hl, World.fail, catchBlock]
  · simpa [World.step, hc] using h

theorem World.inv_run (events : List Event) :
    ∀ w : World, World.Inv w → World.Inv (w.run events) := by
  induction events with
  | nil => intro w h; exact h
  | cons ev rest ih =>
    intro w h
    exact ih (w.step ev) (World.inv_step w ev h)

/-! ## Streaming decode: what the loop accumulates -/

theorem Utf8Decoder.run_append (a b : List Nat) :
    ∀ d : Utf8Decoder, d.run (a ++ b) =
      (((d.run a).1.run b).1, (d.run a).2 ++ ((d.run a).1.run b).2) := by
  induction a with
  | nil => intro d; simp [Utf8Decoder.run]
  | cons x rest ih =>
    intro d
    have e : (x :: rest) ++ b = x :: (rest ++ b) := rfl
    rw [e]
    simp only [Utf8Decoder.run, ih, List.append_assoc]

theorem TextDecoder.serialize_seen (items : List Char) :
    TextDecoder.serialize true items = (true, items) := by
  cases items <;> simp [TextDecoder.serialize]

theorem TextDecoder.serialize_append (b : Bool) (xs ys : List Char) :
    TextDecoder.serialize b (xs ++ ys) =
      ((TextDecoder.serialize (TextDecoder.serialize b xs).1 ys).1,
       (TextDecoder.serialize b xs).2 ++
         (TextDecoder.serialize (TextDecoder.serialize b xs).1 ys).2) := by
  cases xs with
  | nil => simp [TextDecoder.serialize]
  | cons c cs =>
    cases b
    · by_cases hc : c = bomChar <;> cases ys <;> simp [TextDecoder.serialize, hc]
    · cases ys <;> simp [TextDecoder.serialize]

theorem TextDecoder.streaming_new : TextDecoder.Streaming TextDecoder.new :=
  Or.inr ⟨rfl, rfl⟩

theorem TextDecoder.decode_stream (td : TextDecoder) (value : List Nat)
    (h : TextDecoder.Streaming td) :
    td.decode value true =
      ({ decoder := (td.decoder.run value).1
         bomSeen := (TextDecoder.serialize td.bomSeen (td.decoder.run value).2).1
         doNotFlush := true },
       String.mk (TextDecoder.serialize td.bomSeen (td.decoder.run value).2).2) := by
  obtain ⟨d, b, f⟩ := td
  rcases h with h | ⟨h1, h2⟩
  · simp only at h
    subst h
    simp [TextDecoder.decode]
  · simp only at h1 h2
    subst h1 h2
    cases f <;> simp [TextDecoder.decode]

theorem concatTexts_decodedTexts (chunks : List (List Nat)) :
    ∀ td : TextDecoder, TextDecoder.Streaming td →
      concatTexts (decodedTexts td chunks) =
        String.mk (TextDecoder.serialize td.bomSeen (td.decoder.run chunks.flatten).2).2 := by
  induction chunks with
  | nil =>
    intro td _
    cases hb : td.bomSeen <;> rfl
  | cons value rest ih =>
    intro td h
    simp only [decodedTexts, concatTexts, List.flatten_cons]
    rw [TextDecoder.decode_stream td value h]
    rw [ih _ (Or.inl rfl)]
    simp only [Utf8Decoder.run_append, TextDecoder.serialize_append]
    rfl

theorem utf8Decode_eq (bytes : List Nat) :
    utf8Decode bytes =
      String.mk (TextDecoder.serialize false
        ((Utf8Decoder.fresh.run bytes).2 ++ (Utf8Decoder.fresh.run bytes).1.finish.2)).2 := by
  simp [utf8Decode, TextDecoder.decode, TextDecoder.new]

/-- The text the loop accumulates depends only on the bytes of the body, not on
how the transport splits them into chunks. -/
theorem streamed_text_split_independent (chunks1 chunks2 : List (List Nat))
    (h : chunks1.flatten = chunks2.flatten) :
    concatTexts (decodedTexts TextDecoder.new chunks1) =
      concatTexts (decodedTexts TextDecoder.new chunks2) := by
  rw [concatTexts_decodedTexts chunks1 _ TextDecoder.streaming_new,
    concatTexts_decodedTexts chunks2 _ TextDecoder.streaming_new, h]

/-- When the body does not end inside a multi-byte character, the text the loop
accumulates is the decoding of the whole body. -/
theorem streamed_text_eq_utf8Decode (chunks : List (List Nat))
    (h : (Utf8Decoder.fresh.run chunks.flatten).1.bytesNeeded = 0) :
    concatTexts (decodedTexts TextDecoder.new chunks) = utf8Decode chunks.flatten := by
  rw [concatTexts_decodedTexts chunks _ TextDecoder.streaming_new, utf8Decode_eq]
  simp [Utf8Decoder.finish, h, TextDecoder.new]

/-! ## The request body denotes the array that was serialized -/

theorem hexValue_hexDigit : ∀ k, k < 16 → hexValue (hexDigit k) = some k := by
  decide

theorem readChars_quoteChar (c : Char) (tail : List Char) :
    readChars .plain (quoteChar c ++ tail) = consResult c (readChars .plain tail) := by
  unfold quoteChar
  simp only []
  split_ifs with h1 h2 h3 h4 h5 h6 h7 h8
  · have hc : c = Char.ofNat 8 := by rw [← h1, Char.ofNat_toNat]
    subst hc
    simp [readChars, unescape]
  · have hc : c = Char.ofNat 9 := by rw [← h2, Char.ofNat_toNat]
    subst hc
    simp [readChars, unescape]
  · have hc : c = Char.ofNat 10 := by rw [← h3, Char.ofNat_toNat]
    subst hc
    simp [readChars, unescape]
  · have hc : c = Char.ofNat 12 := by rw [← h4, Char.ofNat_toNat]
    subst hc
    simp [readChars, unescape]
  · have hc : c = Char.ofNat 13 := by rw [← h5, Char.ofNat_toNat]
    subst hc
    simp [readChars, unescape]
  · have hc : c = Char.ofNat 0x22 := by rw [← h6, Char.ofNat_toNat]
    subst hc
    simp [readChars, unescape]
  · have hc : c = Char.ofNat 0x5C := by rw [← h7, Char.ofNat_toNat]
    subst hc
    simp [readChars, unescape]
  · have a1 := hexValue_hexDigit (c.toNat / 16) (by omega)
    have a2 := hexValue_hexDigit (c.toNat % 16) (by omega)
    have a0 : hexValue (Char.ofNat 0x30) = some 0 := by decide
    have e2 : c.toNat / 16 * 16 + c.toNat % 16 = c.toNat := by omega
    simp [readChars, a0, a1, a2, e2]
  · simp [readChars, h6, h7]

theorem readString_quoted (l rest : List Char) :
    readString (l.flatMap quoteChar ++ Char.ofNat 0x22 :: rest) = some (l, rest) := by
  unfold readString
  induction l with
  | nil => simp [readChars]
  | cons c cs ih =>
    rw [List.flatMap_cons, List.append_assoc, readChars_quoteChar, ih]
    rfl

theorem expect_append (lit rest : List Char) : expect lit (lit ++ rest) = some rest := by
  induction lit with
  | nil => cases rest <;> rfl
  | cons c cs ih => simp [expect, ih]

theorem readMessage_stringifyMessage (m : Message) (rest : List Char) :
    readMessage (stringifyMessage m ++ rest) = some (m, rest) := by
  have e : stringifyMessage m ++ rest =
      "\x7b\"role\":\"".data ++ (m.role.data.flatMap quoteChar ++ Char.ofNat 0x22 ::
        (",\"content\":\"".data ++ (m.content.data.flatMap quoteChar ++ Char.ofNat 0x22 ::
          ("\x7d".data ++ rest)))) := by
    simp [stringifyMessage, quoteJSONString]
  rw [e]
  unfold readMessage
  rw [expect_append]
  simp only [readString_quoted, expect_append]

theorem stringifyElements_cons_cons (m m2 : Message) (rest : List Message) :
    stringifyElements (m :: m2 :: rest) =
      stringifyMessage m ++ Char.ofNat 0x2C :: stringifyElements (m2 :: rest) := by
  simp [stringifyElements]

theorem readElements_stringifyElements (ms : List Message) :
    ∀ (m : Message) (fuel : Nat), ms.length < fuel →
      readElements fuel (stringifyElements (m :: ms) ++ [Char.ofNat 0x5D]) = some (m :: ms) := by
  induction ms with
  | nil =>
    intro m fuel h
    obtain ⟨k, rfl⟩ : ∃ k, fuel = k + 1 := ⟨fuel - 1, by omega⟩
    simp [readElements, stringifyElements, readMessage_stringifyMessage]
  | cons m2 rest ih =>
    intro m fuel h
    obtain ⟨k, rfl⟩ : ∃ k, fuel = k + 1 := ⟨fuel - 1, by omega⟩
    have hk : rest.length < k := by simpa using h
    rw [stringifyElements_cons_cons, List.append_assoc, readElements,
      readMessage_stringifyMessage]
    have hne : ∃ x xs, stringifyElements (m2 :: rest) ++ [Char.ofNat 0x5D] = x :: xs := by
      cases hs : stringifyElements (m2 :: rest) ++ [Char.ofNat 0x5D] with
      | nil => simp at hs
      | cons x xs => exact ⟨x, xs, rfl⟩
    obtain ⟨x, xs, hx⟩ := hne
    have ih2 := ih m2 k hk
    rw [hx] at ih2
    simp only [List.cons_append, hx, ih2]
    simp

theorem stringifyMessage_length (m : Message) : 2 ≤ (stringifyMessage m).length := by
  simp [stringifyMessage]

theorem stringifyElements_length (ms : List Message) :
    2 * ms.length ≤ (stringifyElements ms).length := by
  induction ms with
  | nil => simp [stringifyElements]
  | cons m rest ih =>
    cases rest with
    | nil =>
      have := stringifyMessage_length m
      simpa [stringifyElements] using this
    | cons m2 rest2 =>
      have := stringifyMessage_length m
      rw [stringifyElements_cons_cons]
      simp only [List.length_append, List.length_cons] at ih ⊢
      omega

/-- The body written by `JSONstringify` reads back as the array serialized: the
serialization loses, adds and reorders nothing. -/
theorem readBody_JSONstringify (ms : List Message) :
    readBody (JSONstringify ms) = some ms := by
  cases ms with
  | nil => decide
  | cons m rest =>
    have hlen := stringifyElements_length (m :: rest)
    have hfuel : rest.length <
        (stringifyElements (m :: rest) ++ [Char.ofNat 0x5D]).length := by
      simp only [List.length_append, List.length_cons, List.length_nil] at hlen ⊢
      omega
    have h := readElements_stringifyElements rest m _ hfuel
    unfold readBody JSONstringify
    simp only []
    cases hs : stringifyElements (m :: rest) ++ [Char.ofNat 0x5D] with
    | nil => simp at hs
    | cons x xs =>
      cases xs with
      | nil =>
        rw [hs] at hfuel
        simp only [List.length_append, List.length_cons, List.length_nil] at hlen
        have : (stringifyElements (m :: rest) ++ [Char.ofNat 0x5D]).length = 1 := by rw [hs]; rfl
        simp only [List.length_append, List.length_cons, List.length_nil] at this
        omega
      | cons y ys =>
        rw [hs] at h
        simpa using h

/-! ## The two readings of `sendMessage` agree

Run alone from a settled state, the turns of the event loop that make up one
call produce exactly what `sendMessage` computes in one piece. -/

theorem World.run_reads (chunks : List (List Nat)) :
    ∀ (d : TextDecoder) (xs : List Message) (m : Message) (msg : String) (l : Bool)
      (reqs : List Request) (logs : List JsError) (tail : List Event),
      World.run
          { ui := { messages := xs ++ [m], message := msg, isLoading := l }
            inflight := [Pending.awaitingRead d], requests := reqs, logged := logs
            crashed := false }
          (chunks.map (Event.readChunk 0) ++ tail) =
        World.run
          { ui := { messages := xs ++ [{ role := m.role
                                         content := m.content ++
                                           concatTexts (decodedTexts d chunks) }]
                    message := msg, isLoading := l }
            inflight := [Pending.awaitingRead (decoderAfter d chunks)]
            requests := reqs, logged := logs, crashed := false }
          tail := by
  induction chunks with
  | nil =>
    intro d xs m msg l reqs logs tail
    simp [decodedTexts, concatTexts, decoderAfter]
  | cons value rest ih =>
    intro d xs m msg l reqs logs tail
    simp only [List.map_cons, List.cons_append, World.run, List.foldl_cons]
    have hstep : World.step
        { ui := { messages := xs ++ [m], message := msg, isLoading := l }
          inflight := [Pending.awaitingRead d], requests := reqs, logged := logs
          crashed := false } (Event.readChunk 0 value) =
        { ui := { messages := xs ++ [{ role := m.role
                                       content := m.content ++ (d.decode value true).2 }]
                  message := msg, isLoading := l }
          inflight := [Pending.awaitingRead (d.decode value true).1]
          requests := reqs, logged := logs, crashed := false } := by
      simp [World.step, appendText_snoc]
    rw [hstep]
    have := ih (d.decode value true).1 xs
      { role := m.role, content := m.content ++ (d.decode value true).2 } msg l reqs logs tail
    simp only [World.run] at this
    rw [this]
    simp [decodedTexts, concatTexts, decoderAfter, String.append_assoc]

/-- From a settled state that passes the guard, the click followed by the
events of the network script leaves the component in the final state of
`sendMessage`, with its request issued and nothing left in flight. -/
theorem World.run_click_script (net : FetchResult) (s : State) (reqs : List Request)
    (logs : List JsError) (h : guardRejects s = false) :
    World.run { ui := s, inflight := [], requests := reqs, logged := logs, crashed := false }
        (Event.click :: script 0 net) =
      { ui := (sendMessage net s).final, inflight := []
        requests := reqs ++ (sendMessage net s).requests
        logged := logs ++ (sendMessage net s).logged, crashed := false } := by
  obtain ⟨M, t, l⟩ := s
  have hclick : World.step
      { ui := { messages := M, message := t, isLoading := l }, inflight := []
        requests := reqs, logged := logs, crashed := false } Event.click =
      { ui := beginSend { messages := M, message := t, isLoading := l }
        inflight := [Pending.awaitingFetch]
        requests := reqs ++ [buildRequest { messages := M, message := t, isLoading := l }]
        logged := logs, crashed := false } := by
    simp [World.step, World.invoke, h]
  simp only [World.run, List.foldl_cons, hclick]
  rw [beginSend_eq]
  cases net with
  | rejects =>
    have hx : (tryBlock .rejects
        (beginSend { messages := M, message := t, isLoading := l })).exit =
        Exit.threw JsError.fetchRejected := by simp [tryBlock]
    obtain ⟨h1, h2, _⟩ := sendMessage_of_threw _ _ _ h hx
    rw [h1, h2, sendMessage_requests _ _ h]
    simp [script, World.step, World.fail, tryBlock, beginSend]
  | resolves response =>
    obtain ⟨ok, body⟩ := response
    cases ok with
    | false =>
      have hx : (tryBlock (.resolves { ok := false, body := body })
          (beginSend { messages := M, message := t, isLoading := l })).exit =
          Exit.threw JsError.notOk := by simp [tryBlock]
      obtain ⟨h1, h2, _⟩ := sendMessage_of_threw _ _ _ h hx
      rw [h1, h2, sendMessage_requests _ _ h]
      cases body with
      | none => simp [script, World.step, World.fail, tryBlock, beginSend]
      | some b =>
        simp only [script, List.foldl_cons]
        have hs : World.step
            { ui := { messages := M ++ [{ role := "user", content := t }] ++
                        [{ role := "assistant", content := "" }]
                      message := "", isLoading := true }
              inflight := [Pending.awaitingFetch]
              requests := reqs ++ [buildRequest { messages := M, message := t, isLoading := l }]
              logged := logs, crashed := false } (Event.fetchResolves 0 false true) =
            { ui := { messages := M ++ [{ role := "user", content := t }] ++
                        [{ role := "assistant", content := "" }] ++
                        [{ role := "assistant", content := errorText }]
                      message := "", isLoading := false }
              inflight := []
              requests := reqs ++ [buildRequest { messages := M, message := t, isLoading := l }]
              logged := logs ++ [JsError.notOk], crashed := false } := by
          simp [World.step, World.fail, catchBlock]
        rw [hs]
        have hrest : ∀ (evs : List Event) (w : World), w.inflight = [] →
            (∀ ev ∈ evs, (∃ v, ev = Event.readChunk 0 v) ∨ ev = Event.readDone 0 ∨
              ev = Event.readThrows 0) → List.foldl World.step w evs = w := by
          intro evs
          induction evs with
          | nil => intro w _ _; rfl
          | cons ev rest ih =>
            intro w hw hev
            have hstep : World.step w ev = w := by
              rcases hev ev (by simp) with ⟨v, rfl⟩ | rfl | rfl <;>
                simp [World.step, hw]
            rw [List.foldl_cons, hstep]
            exact ih w hw (fun e he => hev e (by simp [he]))
        rw [hrest _ _ rfl]
        · simp [tryBlock, beginSend, catchBlock]
        · intro ev hev
          simp only [List.mem_append, List.mem_map, List.mem_singleton] at hev
          rcases hev with ⟨v, _, rfl⟩ | rfl
          · exact Or.inl ⟨v, rfl⟩
          · cases b.ending
            · exact Or.inr (Or.inl rfl)
            · exact Or.inr (Or.inr rfl)
    | true =>
      cases body with
      | none =>
        have hx : (tryBlock (.resolves { ok := true, body := none })
            (beginSend { messages := M, message := t, isLoading := l })).exit =
            Exit.threw JsError.bodyNull := by simp [tryBlock]
        obtain ⟨h1, h2, _⟩ := sendMessage_of_threw _ _ _ h hx
        rw [h1, h2, sendMessage_requests _ _ h]
        simp [script, World.step, World.fail, tryBlock, beginSend]
      | some b =>
        have hs := tryBlock_stream b (M ++ [{ role := "user", content := t }])
          { role := "assistant", content := "" } "" true
        rw [← beginSend_eq M t l] at hs
        simp only [script, List.foldl_cons]
        have hf : World.step
            { ui := { messages := M ++ [{ role := "user", content := t }] ++
                        [{ role := "assistant", content := "" }]
                      message := "", isLoading := true }
              inflight := [Pending.awaitingFetch]
              requests := reqs ++ [buildRequest { messages := M, message := t, isLoading := l }]
              logged := logs, crashed := false } (Event.fetchResolves 0 true true) =
            { ui := { messages := M ++ [{ role := "user", content := t }] ++
                        [{ role := "assistant", content := "" }]
                      message := "", isLoading := true }
              inflight := [Pending.awaitingRead TextDecoder.new]
              requests := reqs ++ [buildRequest { messages := M, message := t, isLoading := l }]
              logged := logs, crashed := false } := by
          simp [World.step]
        rw [hf]
        have hr := World.run_reads b.chunks TextDecoder.new
          (M ++ [{ role := "user", content := t }]) { role := "assistant", content := "" }
          "" true (reqs ++ [buildRequest { messages := M, message := t, isLoading := l }]) logs
        simp only [World.run] at hr
        rw [hr]
        obtain ⟨chunks, ending⟩ := b
        cases ending with
        | done =>
          obtain ⟨h1, h2, _⟩ := sendMessage_of_normal _ _ h hs.2
          rw [h1, h2, hs.1, sendMessage_requests _ _ h]
          simp [World.step, World.complete]
        | throws =>
          obtain ⟨h1, h2, _⟩ := sendMessage_of_threw _ _ _ h hs.2
          rw [h1, h2, hs.1, sendMessage_requests _ _ h]
          simp [World.step, World.fail]

/-! ## The claims -/

/-- C1: for a conversation `M`, an input `t` that is non-empty after trimming and
a clear loading flag, when the response has a success status and its stream
delivers the chunks and then ends normally, the call leaves the conversation
`M` followed by the user message `t` and one assistant message whose content
is the concatenation, in receive order, of the texts decoded from the chunks;
nothing else is appended, the loading flag is false and the promise is
fulfilled with nothing logged. -/
theorem sendMessage_stream_completes (M : List Message) (t : String)
    (chunks : List (List Nat)) (h : trim t ≠ "") :
    (sendMessage (.resolves { ok := true, body := some { chunks := chunks, ending := .done } })
        { messages := M, message := t, isLoading := false }).final =
      { messages := M ++ [{ role := "user", content := t },
          { role := "assistant", content := concatTexts (decodedTexts TextDecoder.new chunks) }]
        message := "", isLoading := false }
    ∧ (sendMessage (.resolves { ok := true, body := some { chunks := chunks, ending := .done } })
        { messages := M, message := t, isLoading := false }).logged = []
    ∧ (sendMessage (.resolves { ok := true, body := some { chunks := chunks, ending := .done } })
        { messages := M, message := t, isLoading := false }).settled = Settled.fulfilled := by
  have hg := guardRejects_eq_false M t h
  have hs := tryBlock_stream { chunks := chunks, ending := .done }
    (M ++ [{ role := "user", content := t }]) { role := "assistant", content := "" } "" true
  rw [← beginSend_eq M t false] at hs
  obtain ⟨h1, h2, h3⟩ := sendMessage_of_normal _ _ hg hs.2
  refine ⟨?_, h2, h3⟩
  rw [h1, hs.1]
  simp

/-- C3: for a conversation `M` and a valid input `t`, when the endpoint answers
with a non-success status then, whatever the response body holds, the call
leaves `M` followed by the user message, the still empty placeholder and
exactly one assistant message with the fixed error text; the loading flag is
false. -/
theorem sendMessage_status_failure (M : List Message) (t : String) (body : Option Body)
    (h : trim t ≠ "") :
    (sendMessage (.resolves { ok := false, body := body })
        { messages := M, message := t, isLoading := false }).final =
      { messages := M ++ [{ role := "user", content := t },
          { role := "assistant", content := "" },
          { role := "assistant"
            content := "I'm sorry, but I encountered an error. Please try again later." }]
        message := "", isLoading := false }
    ∧ (sendMessage (.resolves { ok := false, body := body })
        { messages := M, message := t, isLoading := false }).settled = Settled.fulfilled := by
  have hg := guardRejects_eq_false M t h
  have hx : (tryBlock (.resolves { ok := false, body := body })
      (beginSend { messages := M, message := t, isLoading := false })).exit =
      Exit.threw JsError.notOk := by
    simp [tryBlock]
  obtain ⟨h1, _, h3⟩ := sendMessage_of_threw _ _ _ hg hx
  refine ⟨?_, h3⟩
  rw [h1]
  simp [tryBlock, beginSend, catchBlock, errorText]

/-- C4: for a conversation `M` and a valid input `t`: when the request itself
fails, the call leaves `M`, the user message, the empty placeholder and the
error message; when a read of the stream throws after the chunks given have
been applied, it leaves `M`, the user message, the placeholder holding the
concatenation of the texts decoded so far, and then the error message as a
further assistant message. In both cases the loading flag is false and the
promise of the call is fulfilled, not rejected. -/
theorem sendMessage_exception_contained (M : List Message) (t : String)
    (chunks : List (List Nat)) (h : trim t ≠ "") :
    ((sendMessage .rejects { messages := M, message := t, isLoading := false }).final =
      { messages := M ++ [{ role := "user", content := t },
          { role := "assistant", content := "" },
          { role := "assistant", content := errorText }]
        message := "", isLoading := false }
    ∧ (sendMessage .rejects
        { messages := M, message := t, isLoading := false }).settled = Settled.fulfilled)
    ∧ ((sendMessage (.resolves { ok := true, body := some { chunks := chunks, ending := .throws } })
        { messages := M, message := t, isLoading := false }).final =
      { messages := M ++ [{ role := "user", content := t },
          { role := "assistant", content := concatTexts (decodedTexts TextDecoder.new chunks) },
          { role := "assistant", content := errorText }]
        message := "", isLoading := false }
    ∧ (sendMessage (.resolves { ok := true, body := some { chunks := chunks, ending := .throws } })
        { messages := M, message := t, isLoading := false }).settled = Settled.fulfilled) := by
  have hg := guardRejects_eq_false M t h
  constructor
  · have hx : (tryBlock .rejects
        (beginSend { messages := M, message := t, isLoading := false })).exit =
        Exit.threw JsError.fetchRejected := by
      simp [tryBlock]
    obtain ⟨h1, _, h3⟩ := sendMessage_of_threw _ _ _ hg hx
    refine ⟨?_, h3⟩
    rw [h1]
    simp [tryBlock, beginSend, catchBlock]
  · have hs := tryBlock_stream { chunks := chunks, ending := .throws }
      (M ++ [{ role := "user", content := t }]) { role := "assistant", content := "" } "" true
    rw [← beginSend_eq M t false] at hs
    obtain ⟨h1, _, h3⟩ := sendMessage_of_threw _ _ _ hg hs.2
    refine ⟨?_, h3⟩
    rw [h1, hs.1]
    simp [catchBlock]

/-- C5: for a conversation `M` and an input `t` that is non-empty after trimming,
with the loading flag false: at the first suspension of the call, before any
response is processed, the loading flag is true, the input buffer is empty
and the conversation is `M` followed by the user message carrying `t` as
typed and the empty assistant placeholder. -/
theorem sendMessage_initiation (net : FetchResult) (M : List Message) (t : String)
    (h : trim t ≠ "") :
    (sendMessage net { messages := M, message := t, isLoading := false }).suspended.head? =
      some { messages := M ++ [{ role := "user", content := t },
                               { role := "assistant", content := "" }]
             message := "", isLoading := true } := by
  rw [sendMessage_suspended _ _ (guardRejects_eq_false M t h), tryBlock_suspended_head]
  simp [beginSend]

/-- C6: in a state whose input buffer is empty or holds only white space, a call
of `sendMessage` changes nothing: conversation, input buffer and loading flag
are as before, the call never suspends (so no intermediate state exists in
which the flag was raised), and no request is issued. -/
theorem sendMessage_blank_noop (net : FetchResult) (s : State)
    (h : ∀ c ∈ s.message.data, isJsWhiteSpace c = true) :
    sendMessage net s =
      { final := s, requests := [], suspended := [], logged := [], settled := Settled.fulfilled } := by
  unfold sendMessage
  rw [guardRejects_of_blank s h]
  rfl

/-- C8: on a non-empty conversation `S` the chunk-append update succeeds and
returns a conversation of the same length, equal to `S` at every index below
the last, whose last message has the role of the last message of `S` and its
content followed by the chunk. -/
theorem appendText_frame (S : List Message) (c : String) (h : S ≠ []) :
    ∃ (S2 : List Message) (last : Message),
      appendText c S = some S2
      ∧ S.getLast? = some last
      ∧ S2.length = S.length
      ∧ (∀ i, i < S.length - 1 → S2[i]? = S[i]?)
      ∧ S2[S.length - 1]? = some { role := last.role, content := last.content ++ c } := by
  obtain ⟨xs, m, rfl⟩ : ∃ xs m, S = xs ++ [m] :=
    ⟨S.dropLast, S.getLast h, (List.dropLast_append_getLast h).symm⟩
  refine ⟨xs ++ [{ role := m.role, content := m.content ++ c }], m,
    appendText_snoc c xs m, by simp, by simp, ?_, by simp⟩
  intro i hi
  have hi2 : i < xs.length := by simpa using hi
  rw [List.getElem?_append_left hi2, List.getElem?_append_left hi2]

/-- C10: `handleKeyPress` calls `sendMessage` exactly once when the key is Enter
and Shift is not held, and then the resulting state is that of calling
`sendMessage` directly; for Shift+Enter and for every other key it makes no
call and leaves the state as it was. -/
theorem handleKeyPress_sends_iff (event : KeyEvent) (net : FetchResult) (s : State) :
    ((handleKeyPress event net s).calls.length = 1 ↔
        (event.key = "Enter" ∧ event.shiftKey = false))
    ∧ ((event.key = "Enter" ∧ event.shiftKey = false) →
        (handleKeyPress event net s).calls = [sendMessage net s]
        ∧ (handleKeyPress event net s).final = (sendMessage net s).final)
    ∧ (¬ (event.key = "Enter" ∧ event.shiftKey = false) →
        (handleKeyPress event net s).calls = []
        ∧ (handleKeyPress event net s).final = s) := by
  unfold handleKeyPress
  by_cases hk : event.key = "Enter" <;> cases hs : event.shiftKey <;> simp [hk]

/-- C7: while the loading flag is true a call of `sendMessage`, whatever the
input buffer holds, leaves conversation, input buffer and loading flag as
they were, never suspends and issues no request; as a turn of the event loop
it leaves the whole component unchanged, requests included; and in every
state reachable from the freshly mounted component at most one call is in
flight. -/
theorem sendMessage_reentrancy_guard (net : FetchResult) (s : State) (w : World)
    (events : List Event) (h : s.isLoading = true) (hw : w.ui.isLoading = true) :
    sendMessage net s =
      { final := s, requests := [], suspended := [], logged := [], settled := Settled.fulfilled }
    ∧ w.step Event.click = w
    ∧ (World.initial.run events).inflight.length ≤ 1 := by
  refine ⟨?_, ?_, (World.inv_run events World.initial World.inv_initial).1⟩
  · unfold sendMessage
    rw [guardRejects_of_loading s h]
    rfl
  · unfold World.step World.invoke
    rw [guardRejects_of_loading w.ui hw]
    simp

/-- C9 at a body that ends inside a multi-byte character: for the single chunk
`48 69 E2 82` and a stream that ends normally, the placeholder finally holds
`Hi`, while the UTF-8 decoding of the whole body is `Hi` followed by U+FFFD;
the pending bytes are never flushed, so the two differ. -/
theorem sendMessage_truncated_tail_lost :
    (sendMessage
        (.resolves { ok := true
                     body := some { chunks := [[0x48, 0x69, 0xE2, 0x82]], ending := .done } })
        { messages := [greeting], message := "Hello", isLoading := false }).final.messages
      = [greeting, { role := "user", content := "Hello" }, { role := "assistant", content := "Hi" }]
    ∧ utf8Decode [0x48, 0x69, 0xE2, 0x82] = String.mk [Char.ofNat 0x48, Char.ofNat 0x69, replacementChar]
    ∧ utf8Decode [0x48, 0x69, 0xE2, 0x82] ≠ "Hi" := by
  decide

/-- C2: for a conversation `M` and an input `t` that passes the guard, the call
issues exactly one request, a POST to the chat endpoint declared as JSON,
whose body is the serialization of `M` followed by the single new user
message; read back, the body denotes exactly that list, so every message of
`M` appears once and in order, the new message is last, the empty placeholder
is absent, and every record has the two fields `role` and `content`. -/
theorem sendMessage_request_body (net : FetchResult) (M : List Message) (t : String)
    (h : trim t ≠ "") :
    (sendMessage net { messages := M, message := t, isLoading := false }).requests =
      [{ url := "/api/chat", method := "POST"
         headers := [("Content-Type", "application/json")]
         body := JSONstringify (M ++ [{ role := "user", content := t }]) }]
    ∧ ((sendMessage net { messages := M, message := t, isLoading := false }).requests.map
        (fun r => readBody r.body)) = [some (M ++ [{ role := "user", content := t }])] := by
  rw [sendMessage_requests _ _ (guardRejects_eq_false M t h)]
  simp [buildRequest, readBody_JSONstringify]

/-! ## The claims at concrete inputs -/

theorem sendMessage_stream_completes_witness :
    trim "Hello" ≠ "" ∧
    (sendMessage
        (.resolves { ok := true
                     body := some { chunks := [[0x48, 0x69], [0x20, 0x74, 0x68, 0x65, 0x72, 0x65]]
                                    ending := .done } })
        { messages := [greeting], message := "Hello", isLoading := false }).final =
      { messages := [greeting, { role := "user", content := "Hello" },
                     { role := "assistant", content := "Hi there" }]
        message := "", isLoading := false } :=
  ⟨by decide,
   (sendMessage_stream_completes [greeting] "Hello"
      [[0x48, 0x69], [0x20, 0x74, 0x68, 0x65, 0x72, 0x65]] (by decide)).1.trans (by decide)⟩

theorem sendMessage_request_body_witness :
    trim "Hello" ≠ "" ∧
    (sendMessage .rejects { messages := [greeting], message := "Hello", isLoading := false }).requests =
      [{ url := "/api/chat", method := "POST"
         headers := [("Content-Type", "application/json")]
         body := JSONstringify [greeting, { role := "user", content := "Hello" }] }] :=
  ⟨by decide, (sendMessage_request_body .rejects [greeting] "Hello" (by decide)).1⟩

theorem sendMessage_status_failure_witness :
    trim "Hello" ≠ "" ∧
    (sendMessage (.resolves { ok := false, body := some { chunks := [[0x48, 0x69]], ending := .done } })
        { messages := [greeting], message := "Hello", isLoading := false }).final =
      { messages := [greeting, { role := "user", content := "Hello" },
          { role := "assistant", content := "" },
          { role := "assistant"
            content := "I'm sorry, but I encountered an error. Please try again later." }]
        message := "", isLoading := false } :=
  ⟨by decide,
   (sendMessage_status_failure [greeting] "Hello"
      (some { chunks := [[0x48, 0x69]], ending := .done }) (by decide)).1⟩

theorem sendMessage_exception_contained_witness :
    trim "Hello" ≠ "" ∧
    (sendMessage (.resolves { ok := true, body := some { chunks := [[0x48, 0x69]], ending := .throws } })
        { messages := [greeting], message := "Hello", isLoading := false }).final =
      { messages := [greeting, { role := "user", content := "Hello" },
          { role := "assistant", content := "Hi" },
          { role := "assistant", content := errorText }]
        message := "", isLoading := false } :=
  ⟨by decide,
   (sendMessage_exception_contained [greeting] "Hello" [[0x48, 0x69]] (by decide)).2.1.trans
     (by decide)⟩

theorem sendMessage_initiation_witness :
    trim " Hello " ≠ "" ∧
    (sendMessage .rejects
        { messages := [greeting], message := " Hello ", isLoading := false }).suspended.head? =
      some { messages := [greeting, { role := "user", content := " Hello " },
                          { role := "assistant", content := "" }]
             message := "", isLoading := true } :=
  ⟨by decide, sendMessage_initiation .rejects [greeting] " Hello " (by decide)⟩

theorem sendMessage_blank_noop_witness :
    (∀ c ∈ (" \t\n" : String).data, isJsWhiteSpace c = true) ∧
    sendMessage .rejects { messages := [greeting], message := " \t\n", isLoading := false } =
      { final := { messages := [greeting], message := " \t\n", isLoading := false }
        requests := [], suspended := [], logged := [], settled := Settled.fulfilled } :=
  ⟨by decide,
   sendMessage_blank_noop .rejects
     { messages := [greeting], message := " \t\n", isLoading := false } (by decide)⟩

theorem sendMessage_reentrancy_guard_witness :
    (World.initial.run [Event.change "Hello", Event.click]).ui.isLoading = true ∧
    (World.initial.run [Event.change "Hello", Event.click]).step Event.click =
      World.initial.run [Event.change "Hello", Event.click] ∧
    (World.initial.run [Event.change "Hello", Event.click, Event.change "again",
      Event.click]).inflight.length ≤ 1 :=
  ⟨by decide,
   (sendMessage_reentrancy_guard .rejects
      { messages := [greeting], message := "again", isLoading := true }
      (World.initial.run [Event.change "Hello", Event.click])
      [Event.change "Hello", Event.click, Event.change "again", Event.click]
      rfl (by decide)).2⟩

theorem appendText_frame_witness :
    ([greeting, { role := "user", content := "Hello" },
      { role := "assistant", content := "Hi" }] : List Message) ≠ [] ∧
    ∃ (S2 : List Message) (last : Message),
      appendText " there" [greeting, { role := "user", content := "Hello" },
        { role := "assistant", content := "Hi" }] = some S2
      ∧ [greeting, { role := "user", content := "Hello" },
          { role := "assistant", content := "Hi" }].getLast? = some last
      ∧ S2.length = 3
      ∧ (∀ i, i < 3 - 1 → S2[i]? = [greeting, { role := "user", content := "Hello" },
          { role := "assistant", content := "Hi" }][i]?)
      ∧ S2[3 - 1]? = some { role := last.role, content := last.content ++ " there" } :=
  ⟨by decide,
   appendText_frame [greeting, { role := "user", content := "Hello" },
     { role := "assistant", content := "Hi" }] " there" (by decide)⟩

end ChatWidget
